import Mathlib

/-!
Verification of the pump dispense orchestration core of the bartender-boys
repository.  The Python sources are shallowly embedded as executable Lean
definitions: durations and clock values are rationals, GPIO side effects are
explicit event traces, and fallible operations return Except values.

Embedded components:
* Pi5     - apps/Pi5/pi_app (PumpMapping, PumpController, DispenseManager)
* FwPumps - apps/firmware/hardware/pumps.py (PumpController)
* FwRoute - apps/firmware/routes.py (receive_drink_request)
* PiCtrl  - apps/pi-controller/main.py (PumpController.start_dispense)
* Backend - apps/backend/iot (build_firmware_command, ratio resolution)
          and apps/Pi5/pi_app/services/security.py (enforce_token)
-/

/-- Association-list lookup mirroring Python dict access (first match wins;
dict insertion order corresponds to list order). -/
def alookup {α : Type} (key : String) : List (String × α) → Option α
  | [] => none
  | (k, v) :: rest => if k = key then some v else alookup key rest

namespace Pi5

/-- Defaults block of pi_mapping.json as validated by pydantic PumpDefaults
(prime_time_seconds gt 0, post_dispense_delay_seconds ge 0,
max_run_seconds gt 0, cooldown_seconds ge 0). -/
structure PumpDefaults where
  prime_time_seconds : ℚ
  post_dispense_delay_seconds : ℚ
  max_run_seconds : ℚ
  cooldown_seconds : ℚ
deriving Repr, DecidableEq

/-- PumpMapping from pi_app/hardware/controller.py.  The calibration map keeps
only the correction_factor field, which is the only field the controller reads. -/
structure PumpMapping where
  pumps : List (String × Int)
  flow_rates_ml_per_second : List (String × ℚ)
  defaults : PumpDefaults
  calibration : List (String × ℚ)
deriving Repr, DecidableEq

/-- PumpMapping.get_flow_rate. -/
def get_flow_rate (m : PumpMapping) (pump : String) : Option ℚ :=
  alookup pump m.flow_rates_ml_per_second

/-- PumpMapping.get_correction_factor (defaults to 1.0 without a calibration
entry). -/
def get_correction_factor (m : PumpMapping) (pump : String) : ℚ :=
  match alookup pump m.calibration with
  | some c => c
  | none => 1

/-- PumpMapping.get_pin: raises ValueError for a pump id absent from pumps. -/
def get_pin (m : PumpMapping) (pump : String) : Except String Int :=
  match alookup pump m.pumps with
  | some pin => Except.ok pin
  | none => Except.error "Unknown pump in mapping"

/-- PumpController._validate_seconds.  The second guard is
`if max_run and seconds > max_run` in Python, hence the truthiness test on
max_run. -/
def validate_seconds (m : PumpMapping) (seconds : ℚ) : Except String Unit :=
  if seconds ≤ 0 then Except.error "Dispense duration must be greater than zero"
  else if m.defaults.max_run_seconds ≠ 0 ∧ m.defaults.max_run_seconds < seconds then
    Except.error "Requested duration exceeds safety limit"
  else Except.ok ()

/-- One GPIO-level side effect of PumpController._run_pump. -/
inductive GpioEvent where
  | output (pin : Int) (high : Bool)
  | sleepFor (seconds : ℚ)
deriving Repr, DecidableEq

/-- Side-effect trace of PumpController._run_pump: with hardware the pin is
driven high, held for the duration, and driven low; in simulation only the
sleep happens. -/
def run_pump_events (hardware : Bool) (pin : Int) (seconds : ℚ) : List GpioEvent :=
  if hardware then
    [GpioEvent.output pin true, GpioEvent.sleepFor seconds, GpioEvent.output pin false]
  else [GpioEvent.sleepFor seconds]

/-- Result dictionary returned by PumpController._run_pump. -/
structure DispenseRecord where
  pump : String
  pin : Int
  seconds : ℚ
  hardware : Bool
deriving Repr, DecidableEq

/-- PumpController.dispense: validate the duration, resolve the pin, then run
the pump.  The second component is the GPIO side-effect trace produced by the
call; validation failures occur before any GPIO output. -/
def dispense (m : PumpMapping) (hardware : Bool) (pump : String) (seconds : ℚ) :
    Except String DispenseRecord × List GpioEvent :=
  match validate_seconds m seconds with
  | Except.error e => (Except.error e, [])
  | Except.ok _ =>
    match get_pin m pump with
    | Except.error e => (Except.error e, [])
    | Except.ok pin =>
      (Except.ok ⟨pump, pin, seconds, hardware⟩, run_pump_events hardware pin seconds)

end Pi5

/-- Observed wall-clock window of a single pump activation. -/
structure TimedRun where
  start : ℚ
  finish : ℚ
deriving Repr, DecidableEq

/-- One observable action of a sequential dispense run: a completed pump
activation or an inter-step pause. -/
inductive SeqEvent where
  | act (pump : String) (seconds : ℚ)
  | pauseFor (seconds : ℚ)
deriving Repr, DecidableEq

namespace Pi5

/-- PumpController.run_steps: execute normalized steps sequentially, pausing
only when the step has a successor (`pause_between > 0 and idx < len(steps)`).
Returns the results (or the raised error) together with the event trace of
what actually ran. -/
def run_steps (m : PumpMapping) (hardware : Bool) (pause : ℚ) :
    List (String × ℚ) → Except String (List DispenseRecord) × List SeqEvent
  | [] => (Except.ok [], [])
  | (pump, s) :: rest =>
    match (dispense m hardware pump s).1 with
    | Except.error e => (Except.error e, [])
    | Except.ok r =>
      let pauseEvs := if 0 < pause ∧ rest ≠ [] then [SeqEvent.pauseFor pause] else []
      match run_steps m hardware pause rest with
      | (Except.error e, evs) => (Except.error e, SeqEvent.act pump s :: (pauseEvs ++ evs))
      | (Except.ok rs, evs) => (Except.ok (r :: rs), SeqEvent.act pump s :: (pauseEvs ++ evs))

/-- Expected trace of a successful sequential run: one activation per step in
order, with a pause inserted after a step exactly when a further step follows. -/
def seqTrace (pause : ℚ) : List (String × ℚ) → List SeqEvent
  | [] => []
  | (p, s) :: rest =>
    SeqEvent.act p s ::
      ((if 0 < pause ∧ rest ≠ [] then [SeqEvent.pauseFor pause] else []) ++ seqTrace pause rest)

/-- PumpController._respect_cooldown as a pure delay computation: how long the
call sleeps before the pump may start, given the recorded end time of the
previous activation of the same pump. -/
def cooldown_delay (cooldown : ℚ) (last_run : Option ℚ) (now : ℚ) : ℚ :=
  if cooldown ≤ 0 then 0
  else
    match last_run with
    | none => 0
    | some last => if 0 < cooldown - (now - last) then cooldown - (now - last) else 0

/-- PumpController._run_pump with an explicit clock: waits out the cooldown,
runs for the given duration, and records the activation end time in the
cooldown bookkeeping. -/
def run_pump_timed (m : PumpMapping) (cds : List (String × ℚ)) (pump : String)
    (seconds now : ℚ) : TimedRun × List (String × ℚ) :=
  let delay := cooldown_delay m.defaults.cooldown_seconds (alookup pump cds) now
  let start := now + delay
  let fin := start + seconds
  (⟨start, fin⟩, (pump, fin) :: cds)

/-- Truthiness of an optional float in Python (None and 0.0 are falsy). -/
def qtruthy : Option ℚ → Bool
  | none => false
  | some x => decide (x ≠ 0)

/-- DispenseStep of pi_app/models.py. -/
structure DispenseStep where
  pump : String
  seconds : Option ℚ
  ml : Option ℚ
  prime : Bool
  description : Option String
deriving Repr, DecidableEq

/-- Pydantic field constraints of DispenseStep: seconds and ml, when given,
are strictly positive (`gt=0`). -/
def wf_step (st : DispenseStep) : Prop :=
  (∀ x, st.seconds = some x → 0 < x) ∧ (∀ x, st.ml = some x → 0 < x)

/-- DispenseManager._resolve_seconds: prime flag first, then explicit seconds,
then ml divided by the corrected flow rate, else an error.  The guards are
Python truthiness tests, and a missing or zero flow rate raises. -/
def resolve_seconds (m : PumpMapping) (st : DispenseStep) : Except String ℚ :=
  if st.prime then Except.ok m.defaults.prime_time_seconds
  else if qtruthy st.seconds then Except.ok (st.seconds.getD 0)
  else if qtruthy st.ml then
    let flow := get_flow_rate m st.pump
    if qtruthy flow then
      Except.ok (st.ml.getD 0 / (flow.getD 0 * get_correction_factor m st.pump))
    else Except.error "Pump is missing flow rate info for ml-based step"
  else Except.error "Step must include seconds or ml (or prime flag)"

end Pi5

namespace FwPumps

/-- PumpController of apps/firmware/hardware/pumps.py: the pump map plus the
defaults block it reads.  cooldown_seconds is present in the configuration but
never consulted by this controller. -/
structure Controller where
  pumps : List (String × Int)
  post_dispense_delay_seconds : ℚ
  max_run_seconds : ℚ
  cooldown_seconds : ℚ
deriving Repr, DecidableEq

/-- PumpController._run_step with an explicit clock: unknown pumps raise, the
duration is clamped below at zero, and the activation starts immediately at
the call time - there is no cooldown wait in this controller. -/
def run_step (c : Controller) (pump : String) (seconds now : ℚ) : Except String TimedRun :=
  match alookup pump c.pumps with
  | none => Except.error "Unknown pump in dispense request"
  | some _pin => Except.ok ⟨now, now + max 0 seconds⟩

/-- PumpController.dispense_steps as an event trace: per step, the safety
check (`if max_run and seconds > max_run`), the unknown-pump check of
_run_step, then the activation followed by a pause whenever `pause > 0` -
including after the final step. -/
def steps_events (c : Controller) (pause : ℚ) :
    List (String × ℚ) → Except String (List SeqEvent)
  | [] => Except.ok []
  | (pump, s) :: rest =>
    if c.max_run_seconds ≠ 0 ∧ c.max_run_seconds < s then
      Except.error "Requested run time exceeds safety limit"
    else if (alookup pump c.pumps).isNone then
      Except.error "Unknown pump in dispense request"
    else
      match steps_events c pause rest with
      | Except.error e => Except.error e
      | Except.ok evs =>
        Except.ok (SeqEvent.act pump (max 0 s) ::
          ((if 0 < pause then [SeqEvent.pauseFor pause] else []) ++ evs))

end FwPumps

namespace FwRoute

/-- One entry of hardwareSteps as received by apps/firmware/routes.py - an
untyped dict, so every field is optional. -/
structure HwStep where
  pump : Option String
  pump_name : Option String
  seconds : Option ℚ
  duration : Option ℚ
  description : Option String
deriving Repr, DecidableEq

/-- Python `a or b` over optional strings (None and the empty string are
falsy). -/
def pyOrStr (a b : Option String) : Option String :=
  match a with
  | some s => if s = "" then b else some s
  | none => b

/-- Truthiness of an optional string in Python. -/
def strTruthy : Option String → Bool
  | none => false
  | some s => decide (s ≠ "")

/-- Duration resolution `step.get("seconds") or step.get("duration", 1.0)`:
a missing or zero seconds value falls back to the duration field, which
itself defaults to 1.0. -/
def stepSeconds (st : HwStep) : ℚ :=
  match st.seconds with
  | some s => if s = 0 then (match st.duration with | some d => d | none => 1) else s
  | none => match st.duration with | some d => d | none => 1

/-- Module-level PUMP_TO_GPIO fallback map of apps/firmware/routes.py. -/
def PUMP_TO_GPIO : List (String × Int) := [("pump1", 17), ("pump2", 27), ("pump3", 22)]

/-- Scan of the pump_mapping dict: the first ingredient whose mapped pump
equals the step pump name and that has a configured GPIO pin wins. -/
def findIngredientPin (pumpMapping : List (String × String)) (itg : List (String × Int))
    (pumpName : Option String) : Option Int :=
  match pumpMapping with
  | [] => none
  | (ing, mapped) :: rest =>
    if some mapped = pumpName then
      match alookup ing itg with
      | some pin => some pin
      | none => findIngredientPin rest itg pumpName
    else findIngredientPin rest itg pumpName

/-- GPIO resolution for one hardware step in receive_drink_request: try the
ingredient mapping (only when a pump_mapping and a description are present),
then fall back to PUMP_TO_GPIO by pump name. -/
def resolveStepPin (pumpMapping : List (String × String)) (itg ptg : List (String × Int))
    (st : HwStep) : Option Int :=
  let pumpName := pyOrStr st.pump st.pump_name
  let fromMapping :=
    if pumpMapping ≠ [] ∧ strTruthy st.description then
      findIngredientPin pumpMapping itg pumpName
    else none
  match fromMapping with
  | some pin => some pin
  | none =>
    match pumpName with
    | some pn => alookup pn ptg
    | none => none

/-- Response of receive_drink_request on the hardware-steps path, together
with the (pin, duration) pump tasks that were gathered and run. -/
structure Response where
  ok : Bool
  tasksRun : List (Int × ℚ)
deriving Repr, DecidableEq

/-- Hardware-steps path of receive_drink_request (GPIO available): each step
whose pin resolves becomes a pump task, steps without a pin are skipped with a
warning, all collected tasks run, and the response is an error only when no
task was collected. -/
def receive_drink_steps (pumpMapping : List (String × String)) (itg ptg : List (String × Int))
    (steps : List HwStep) : Response :=
  let tasks := steps.filterMap (fun st =>
    match resolveStepPin pumpMapping itg ptg st with
    | some pin => some (pin, stepSeconds st)
    | none => none)
  if tasks = [] then ⟨false, []⟩ else ⟨true, tasks⟩

/-- Largest task duration (zero for an empty list), the time until
asyncio.gather over pure sleep tasks completes. -/
def maxDur : List (Int × ℚ) → ℚ
  | [] => 0
  | (_, d) :: rest => max d (maxDur rest)

/-- Timing of one gathered pump task. -/
structure TaskTiming where
  pin : Int
  start : ℚ
  finish : ℚ
deriving Repr, DecidableEq

/-- Timed model of `await asyncio.gather(*pump_tasks)` over the pump tasks of
receive_drink_request: every task starts at the gather time (each coroutine
runs to its first sleep immediately), each finishes after its own duration,
and the call returns when the slowest task is done. -/
def gatherRun (t0 : ℚ) (tasks : List (Int × ℚ)) : List TaskTiming × ℚ :=
  (tasks.map (fun pd => ⟨pd.1, t0, t0 + pd.2⟩), t0 + maxDur tasks)

end FwRoute

namespace PiCtrl

/-- PumpPayload of apps/pi-controller/main.py (timing-relevant fields). -/
structure PumpPayload where
  id : String
  gpio_pin : Int
  duration_seconds : ℚ
  prime_seconds : ℚ
  post_dispense_delay_seconds : ℚ
  cooldown_seconds : ℚ
deriving Repr, DecidableEq

/-- PumpController of apps/pi-controller/main.py (configuration the dispense
path reads). -/
structure Controller where
  pumps : List (String × Int)
  default_cooldown : ℚ
  max_run_seconds : ℚ
deriving Repr, DecidableEq

/-- Timing dict returned by start_dispense. -/
structure Timing where
  prime_seconds : ℚ
  duration_seconds : ℚ
  post_dispense_delay_seconds : ℚ
  cooldown_seconds : ℚ
deriving Repr, DecidableEq

/-- HTTPException raised by the dispense path (status 400 or 409). -/
inductive HErr where
  | badRequest (msg : String)
  | conflict (msg : String)
deriving Repr, DecidableEq

/-- Outcome of an accepted start_dispense call: the returned timing plus the
schedule of the task launched with asyncio.create_task.  start_dispense
returns at the issue time; the scheduled task drives the pin active at once,
drives it inactive after prime plus the executed duration, and completes after
the post delay and cooldown sleeps. -/
structure Launch where
  timing : Timing
  returnTime : ℚ
  pinActiveAt : ℚ
  pinInactiveAt : ℚ
  taskEndTime : ℚ
deriving Repr, DecidableEq

/-- PumpController.start_dispense: pump and pin validation, duration
validation against the max-run ceiling with the prime time counted against it
(clamping overlong requests, rejecting requests whose prime alone exhausts the
ceiling), then fire-and-forget task creation. -/
def start_dispense (c : Controller) (p : PumpPayload) (busy : Bool) (now : ℚ) :
    Except HErr Launch :=
  match alookup p.id c.pumps with
  | none => Except.error (HErr.badRequest "Unknown pump id")
  | some pin =>
    if pin ≠ p.gpio_pin then Except.error (HErr.badRequest "GPIO pin mismatch") else
    let prime := max p.prime_seconds 0
    let duration := max p.duration_seconds 0
    if prime + duration ≤ 0 then
      Except.error (HErr.badRequest "Dispense duration must be positive") else
    let allowed := max (c.max_run_seconds - prime) 0
    if allowed ≤ 0 then
      Except.error (HErr.badRequest "Prime time exceeds maximum run seconds configured") else
    let duration2 := if allowed < duration then allowed else duration
    let post := max p.post_dispense_delay_seconds 0
    let cooldown := max p.cooldown_seconds (max c.default_cooldown 0)
    if busy then Except.error (HErr.conflict "Pump controller is busy") else
    Except.ok
      { timing := ⟨prime, duration2, post, cooldown⟩
        returnTime := now
        pinActiveAt := now
        pinInactiveAt := now + prime + duration2
        taskEndTime := now + prime + duration2 + post + cooldown }

end PiCtrl

namespace Backend

/-- Ratio resolution of send_drink_to_firmware in apps/backend/iot/routes.py:
100 percent corresponds to a 5 second base duration. -/
def ratioSeconds (ratio : ℚ) : ℚ := ratio / 100 * 5

/-- Simplified firmware command step {pump_id, ratio}. -/
structure FirmStep where
  pump_id : Int
  ratio : ℚ
deriving Repr, DecidableEq

/-- pump_name_to_id map of build_firmware_command. -/
def pumpNameToId (name : String) : Option Int :=
  alookup name [("pump1", 1), ("pump2", 2), ("pump3", 3)]

/-- Step-building loop of build_firmware_command in apps/backend/iot/utils.py
over the (ingredient, ratio) pairs (the enumerate loop breaks once ratios run
out, hence the zip).  The snake-case normalization helper is passed in as a
function. -/
def buildSteps (normalize : String → String) (pump_mapping : List (String × String)) :
    List (String × ℚ) → List FirmStep
  | [] => []
  | (ingredient, ratio) :: rest =>
    if ratio ≤ 0 then buildSteps normalize pump_mapping rest
    else
      match alookup (normalize ingredient) pump_mapping with
      | some pumpName =>
        match pumpNameToId pumpName with
        | some pid => ⟨pid, ratio⟩ :: buildSteps normalize pump_mapping rest
        | none => buildSteps normalize pump_mapping rest
      | none => buildSteps normalize pump_mapping rest

/-- build_firmware_command: build the steps and fail when none could be
generated. -/
def build_firmware_command (normalize : String → String)
    (pump_mapping : List (String × String)) (ingredients : List String)
    (ratios : List ℚ) : Except String (List FirmStep) :=
  let steps := buildSteps normalize pump_mapping (ingredients.zip ratios)
  if steps = [] then
    Except.error "No valid pump steps could be generated from drink ratios and pump mapping"
  else Except.ok steps

/-- Truthiness of an optional string (None and the empty string are falsy). -/
def strFalsyOpt : Option String → Bool
  | none => true
  | some s => decide (s = "")

/-- Characters after the first space, `s.split(" ", 1)[1]`. -/
def tailAfterSpace : List Char → List Char
  | [] => []
  | c :: cs => if c = ' ' then cs else tailAfterSpace cs

/-- Credential extraction of enforce_token in
apps/Pi5/pi_app/services/security.py: the X-Firmware-Token header wins when
truthy; otherwise a `Bearer ` Authorization header supplies the token. -/
def credential_from (xtoken auth : Option String) : Option String :=
  if strFalsyOpt xtoken then
    match auth with
    | some a =>
      if a.toLower.startsWith "bearer " then some (String.mk (tailAfterSpace a.data))
      else xtoken
    | none => xtoken
  else xtoken

/-- enforce_token: skip entirely when no expected token is configured,
otherwise reject with 401 unless the provided credential equals the expected
token. -/
def enforce_token (xtoken auth expected : Option String) : Except Nat Unit :=
  if strFalsyOpt expected then Except.ok ()
  else
    let provided := credential_from xtoken auth
    if provided = expected then Except.ok () else Except.error 401

end Backend

/-- C1: for every pump and duration, PumpController.dispense fails before the
pin is ever driven whenever the duration is nonpositive or exceeds
defaults.max_run_seconds; under these preconditions the GPIO trace is empty,
so the safety ceiling is never bypassed regardless of the requested duration. -/
theorem Pi5.dispense_invalid_duration_no_gpio
    (m : Pi5.PumpMapping) (hardware : Bool) (pump : String) (seconds : ℚ)
    (hmax : 0 < m.defaults.max_run_seconds)
    (hbad : seconds ≤ 0 ∨ m.defaults.max_run_seconds < seconds) :
    (∃ e, (Pi5.dispense m hardware pump seconds).1 = Except.error e) ∧
      (Pi5.dispense m hardware pump seconds).2 = [] := by
  unfold Pi5.dispense Pi5.validate_seconds
  rcases hbad with hle | hgt
  · simp [hle]
  · have hnle : ¬ seconds ≤ 0 := by linarith
    have hcond : m.defaults.max_run_seconds ≠ 0 ∧ m.defaults.max_run_seconds < seconds :=
      ⟨ne_of_gt hmax, hgt⟩
    simp [hnle, hcond]

/-- Witness for C1 at a concrete mapping: max_run_seconds is 20 and a request
of 25 seconds is rejected with an empty GPIO trace. -/
theorem Pi5.dispense_invalid_duration_no_gpio_witness :
    (0:ℚ) < 20 ∧
      ((∃ e, (Pi5.dispense ⟨[("pump1", 17)], [], ⟨3/2, 1/2, 20, 1⟩, []⟩ true "pump1" 25).1
          = Except.error e) ∧
        (Pi5.dispense ⟨[("pump1", 17)], [], ⟨3/2, 1/2, 20, 1⟩, []⟩ true "pump1" 25).2 = []) :=
  ⟨by norm_num,
    Pi5.dispense_invalid_duration_no_gpio
      ⟨[("pump1", 17)], [], ⟨3/2, 1/2, 20, 1⟩, []⟩ true "pump1" 25
      (by norm_num) (Or.inr (by norm_num))⟩

/-- Inversion helper: every accepted start_dispense call returns at its issue
time, proves the prime left room under the ceiling, and yields the clamped
duration. -/
theorem PiCtrl.start_dispense_ok_elim
    (c : PiCtrl.Controller) (p : PiCtrl.PumpPayload) (busy : Bool) (now : ℚ)
    (l : PiCtrl.Launch)
    (h : PiCtrl.start_dispense c p busy now = Except.ok l) :
    l.returnTime = now ∧
      0 < c.max_run_seconds - max p.prime_seconds 0 ∧
      l.timing.prime_seconds = max p.prime_seconds 0 ∧
      l.timing.duration_seconds =
        (if c.max_run_seconds - max p.prime_seconds 0 < max p.duration_seconds 0
          then c.max_run_seconds - max p.prime_seconds 0 else max p.duration_seconds 0) := by
  unfold PiCtrl.start_dispense at h
  cases halook : alookup p.id c.pumps with
  | none => rw [halook] at h; exact absurd h (by simp)
  | some pin =>
    rw [halook] at h
    simp only at h
    split_ifs at h with h1 h2 h3 h4 h5
    all_goals
      (have hal : 0 < c.max_run_seconds - max p.prime_seconds 0 := by
        rcases le_or_lt (c.max_run_seconds - max p.prime_seconds 0) 0 with hle | hlt
        · exact absurd (max_le hle le_rfl) h3
        · exact hlt
       have hmx : max (c.max_run_seconds - max p.prime_seconds 0) 0
          = c.max_run_seconds - max p.prime_seconds 0 := max_eq_left hal.le
       rw [Except.ok.injEq] at h
       subst h
       rw [hmx] at h5
       exact ⟨rfl, hal, rfl, by simp [hmx, h5]⟩)

/-- Introduction helper: a well-formed request on a known pump that leaves
room under the ceiling is accepted. -/
theorem PiCtrl.start_dispense_ok_intro
    (c : PiCtrl.Controller) (p : PiCtrl.PumpPayload) (now : ℚ)
    (hpin : alookup p.id c.pumps = some p.gpio_pin)
    (hpd : 0 < max p.prime_seconds 0 + max p.duration_seconds 0)
    (hal : 0 < c.max_run_seconds - max p.prime_seconds 0) :
    ∃ l, PiCtrl.start_dispense c p false now = Except.ok l := by
  unfold PiCtrl.start_dispense
  rw [hpin]
  have h1 : ¬ (max p.prime_seconds 0 + max p.duration_seconds 0 ≤ 0) := not_le.mpr hpd
  have h2 : ¬ (max (c.max_run_seconds - max p.prime_seconds 0) 0 ≤ 0) := by
    rw [max_eq_left hal.le]; exact not_le.mpr hal
  simp [h1, h2]

/-- C10: in the pi-controller, prime time counts against the max-run ceiling:
a request whose clamped prime and duration sum to zero is rejected with 400, a
request whose prime alone reaches the ceiling is rejected with 400 before any
pin is driven, and every accepted run has its executed duration bounded by
max_run_seconds minus the prime (overlong requests are clamped to that bound,
not rejected), hence prime plus executed duration never exceeds
max_run_seconds. -/
theorem PiCtrl.prime_counts_against_ceiling
    (c : PiCtrl.Controller) (p : PiCtrl.PumpPayload) (now : ℚ)
    (hpin : alookup p.id c.pumps = some p.gpio_pin) :
    (max p.prime_seconds 0 + max p.duration_seconds 0 ≤ 0 →
        PiCtrl.start_dispense c p false now
          = Except.error (PiCtrl.HErr.badRequest "Dispense duration must be positive")) ∧
      (c.max_run_seconds ≤ max p.prime_seconds 0 →
        0 < max p.prime_seconds 0 + max p.duration_seconds 0 →
          PiCtrl.start_dispense c p false now
            = Except.error
                (PiCtrl.HErr.badRequest "Prime time exceeds maximum run seconds configured")) ∧
      (∀ l, PiCtrl.start_dispense c p false now = Except.ok l →
          l.timing.duration_seconds ≤ c.max_run_seconds - max p.prime_seconds 0 ∧
            max p.prime_seconds 0 + l.timing.duration_seconds ≤ c.max_run_seconds ∧
            (c.max_run_seconds - max p.prime_seconds 0 < max p.duration_seconds 0 →
              l.timing.duration_seconds = c.max_run_seconds - max p.prime_seconds 0)) := by
  refine ⟨?_, ?_, ?_⟩
  · intro h1
    unfold PiCtrl.start_dispense
    rw [hpin]
    simp [h1]
  · intro h2 h3
    have h1 : ¬ (max p.prime_seconds 0 + max p.duration_seconds 0 ≤ 0) := not_le.mpr h3
    have ha : max (c.max_run_seconds - max p.prime_seconds 0) 0 ≤ 0 :=
      max_le (by linarith) le_rfl
    unfold PiCtrl.start_dispense
    rw [hpin]
    simp [h1, ha]
  · intro l hl
    obtain ⟨-, hal, -, hdur⟩ := PiCtrl.start_dispense_ok_elim c p false now l hl
    rw [hdur]
    split_ifs with h4
    · exact ⟨le_rfl, by linarith, fun _ => rfl⟩
    · exact ⟨not_lt.mp h4, by have := not_lt.mp h4; linarith, fun h5 => absurd h5 h4⟩

/-- Witness for C10: pump_1 on pin 5, ceiling 15, prime 2.  A request for 20
seconds is clamped to 13 = 15 - 2 and satisfies prime + duration ≤ ceiling. -/
theorem PiCtrl.prime_counts_against_ceiling_witness :
    alookup "pump_1" [("pump_1", (5:Int))] = some 5 ∧
      (∀ l, PiCtrl.start_dispense ⟨[("pump_1", 5)], 0, 15⟩ ⟨"pump_1", 5, 20, 2, 0, 0⟩ false 0
            = Except.ok l →
          l.timing.duration_seconds ≤ 15 - max (2:ℚ) 0 ∧
            max (2:ℚ) 0 + l.timing.duration_seconds ≤ 15 ∧
            (15 - max (2:ℚ) 0 < max (20:ℚ) 0 →
              l.timing.duration_seconds = 15 - max (2:ℚ) 0)) :=
  ⟨by decide,
    (PiCtrl.prime_counts_against_ceiling ⟨[("pump_1", 5)], 0, 15⟩
      ⟨"pump_1", 5, 20, 2, 0, 0⟩ 0 (by decide)).2.2⟩

/-- C2: a ratio step resolves to (ratio / 100) × 5 seconds (100 percent is
5 seconds), and when that product exceeds the pi-controller ceiling the
executed duration is clamped down to max_run_seconds while the request still
succeeds. -/
theorem Backend.ratio_duration_clamped_to_max_run
    (c : PiCtrl.Controller) (id : String) (pin : Int) (ratio post cd now : ℚ)
    (hpin : alookup id c.pumps = some pin)
    (hr : 0 < ratio) (hmax : 0 < c.max_run_seconds) :
    Backend.ratioSeconds ratio = ratio / 100 * 5 ∧
      Backend.ratioSeconds 100 = 5 ∧
      ∃ l, PiCtrl.start_dispense c ⟨id, pin, Backend.ratioSeconds ratio, 0, post, cd⟩ false now
            = Except.ok l ∧
          l.timing.duration_seconds = min (Backend.ratioSeconds ratio) c.max_run_seconds ∧
          (c.max_run_seconds < Backend.ratioSeconds ratio →
            l.timing.duration_seconds = c.max_run_seconds) := by
  have hD : 0 < Backend.ratioSeconds ratio := by
    unfold Backend.ratioSeconds; positivity
  refine ⟨rfl, by norm_num [Backend.ratioSeconds], ?_⟩
  set p : PiCtrl.PumpPayload := ⟨id, pin, Backend.ratioSeconds ratio, 0, post, cd⟩ with hp
  have hP : max p.prime_seconds 0 = 0 := by simp [hp]
  have hDD : max p.duration_seconds 0 = Backend.ratioSeconds ratio := by
    simp [hp, max_eq_left hD.le]
  obtain ⟨l, hl⟩ := PiCtrl.start_dispense_ok_intro c p now
    (by simpa [hp] using hpin)
    (by rw [hP, hDD]; linarith)
    (by rw [hP]; linarith)
  obtain ⟨-, -, -, hdur⟩ := PiCtrl.start_dispense_ok_elim c p false now l hl
  rw [hP, hDD, sub_zero] at hdur
  refine ⟨l, hl, ?_, ?_⟩
  · rw [hdur]
    split_ifs with h
    · exact (min_eq_right h.le).symm
    · exact (min_eq_left (not_lt.mp h)).symm
  · intro hgt
    rw [hdur, if_pos hgt]

/-- Witness for C2: ratio 400 at ceiling 15 resolves to 20 seconds and is
clamped to 15. -/
theorem Backend.ratio_duration_clamped_to_max_run_witness :
    alookup "pump1" [("pump1", (17:Int))] = some 17 ∧ (0:ℚ) < 400 ∧ (0:ℚ) < 15 ∧
      (Backend.ratioSeconds 400 = 400 / 100 * 5 ∧
        Backend.ratioSeconds 100 = 5 ∧
        ∃ l, PiCtrl.start_dispense ⟨[("pump1", 17)], 0, 15⟩
              ⟨"pump1", 17, Backend.ratioSeconds 400, 0, 0, 0⟩ false 0 = Except.ok l ∧
            l.timing.duration_seconds = min (Backend.ratioSeconds 400) 15 ∧
            ((15:ℚ) < Backend.ratioSeconds 400 → l.timing.duration_seconds = 15)) :=
  ⟨by decide, by norm_num, by norm_num,
    Backend.ratio_duration_clamped_to_max_run ⟨[("pump1", 17)], 0, 15⟩ "pump1" 17 400 0 0 0
      (by decide) (by norm_num) (by norm_num)⟩

/-- C9: enforce_token skips the check entirely when no expected token is
configured (open mode); with a configured token the request is rejected with
401 exactly when the credential taken from the X-Firmware-Token header, or
from a Bearer Authorization header when that header is absent, differs from
the expected token. -/
theorem Backend.enforce_token_open_mode_and_reject
    (xtoken auth : Option String) (t : String) (ht : t ≠ "") :
    (∀ expected, Backend.strFalsyOpt expected = true →
        Backend.enforce_token xtoken auth expected = Except.ok ()) ∧
      (Backend.enforce_token xtoken auth (some t) = Except.error 401 ↔
        Backend.credential_from xtoken auth ≠ some t) := by
  constructor
  · intro expected hexp
    unfold Backend.enforce_token
    simp [hexp]
  · have hft : Backend.strFalsyOpt (some t) = false := by
      simp [Backend.strFalsyOpt, ht]
    unfold Backend.enforce_token
    rw [hft]
    simp only [Bool.false_eq_true, if_false]
    split_ifs with h
    · simp [h]
    · simp [h]

/-- Witness for C9: expected token "secret", no custom header, matching
Bearer header - the endpoint accepts, mismatching credential would be 401. -/
theorem Backend.enforce_token_open_mode_and_reject_witness :
    "secret" ≠ "" ∧
      ((∀ expected, Backend.strFalsyOpt expected = true →
          Backend.enforce_token none (some "Bearer secret") expected = Except.ok ()) ∧
        (Backend.enforce_token none (some "Bearer secret") (some "secret") = Except.error 401 ↔
          Backend.credential_from none (some "Bearer secret") ≠ some "secret")) :=
  ⟨by decide,
    Backend.enforce_token_open_mode_and_reject none (some "Bearer secret") "secret" (by decide)⟩

/-- C6: exactly one resolution mode determines the duration of a step, in the
order prime, then explicit seconds, then ml: a set prime flag yields the
configured prime time, otherwise a set seconds field is used as is, otherwise
a set ml field is divided by flow rate times correction factor (an error when
the pump has no flow rate), and a step with none of the three is an error. -/
theorem Pi5.resolve_seconds_resolution_order
    (m : Pi5.PumpMapping) (st : Pi5.DispenseStep) (hwf : Pi5.wf_step st) :
    (st.prime = true →
        Pi5.resolve_seconds m st = Except.ok m.defaults.prime_time_seconds) ∧
      (st.prime = false → ∀ s, st.seconds = some s →
        Pi5.resolve_seconds m st = Except.ok s) ∧
      (st.prime = false → st.seconds = none → ∀ v, st.ml = some v →
        (Pi5.get_flow_rate m st.pump = none →
            ∃ e, Pi5.resolve_seconds m st = Except.error e) ∧
          (∀ f, Pi5.get_flow_rate m st.pump = some f → f ≠ 0 →
            Pi5.resolve_seconds m st
              = Except.ok (v / (f * Pi5.get_correction_factor m st.pump)))) ∧
      (st.prime = false → st.seconds = none → st.ml = none →
        ∃ e, Pi5.resolve_seconds m st = Except.error e) := by
  obtain ⟨hs, hml⟩ := hwf
  refine ⟨?_, ?_, ?_, ?_⟩
  · intro hp
    unfold Pi5.resolve_seconds
    simp [hp]
  · intro hp s hsec
    have h0 : s ≠ 0 := ne_of_gt (hs s hsec)
    unfold Pi5.resolve_seconds
    simp [hp, hsec, Pi5.qtruthy, h0]
  · intro hp hsec v hv
    have hv0 : v ≠ 0 := ne_of_gt (hml v hv)
    constructor
    · intro hflow
      unfold Pi5.resolve_seconds
      simp [hp, hsec, hv, hflow, Pi5.qtruthy, hv0]
    · intro f hf hf0
      unfold Pi5.resolve_seconds
      simp [hp, hsec, hv, hf, hf0, Pi5.qtruthy, hv0]
  · intro hp hsec hmlnone
    unfold Pi5.resolve_seconds
    simp [hp, hsec, hmlnone, Pi5.qtruthy]

/-- Witness for C6: an ml-based step of 30 ml on a pump with flow rate 10 and
correction factor 1 resolves to 30 / (10 * 1) seconds. -/
theorem Pi5.resolve_seconds_resolution_order_witness :
    Pi5.wf_step ⟨"pump1", none, some 30, false, none⟩ ∧
      Pi5.resolve_seconds ⟨[("pump1", 17)], [("pump1", 10)], ⟨3/2, 1/2, 20, 1⟩, []⟩
          ⟨"pump1", none, some 30, false, none⟩
        = Except.ok ((30:ℚ) / ((10:ℚ) * 1)) := by
  have hwf : Pi5.wf_step ⟨"pump1", none, some 30, false, none⟩ := by
    constructor
    · intro x hx; exact absurd hx (by simp)
    · intro x hx
      have : (30:ℚ) = x := by injection hx
      rw [← this]; norm_num
  refine ⟨hwf, ?_⟩
  have h := (Pi5.resolve_seconds_resolution_order
      ⟨[("pump1", 17)], [("pump1", 10)], ⟨3/2, 1/2, 20, 1⟩, []⟩
      ⟨"pump1", none, some 30, false, none⟩ hwf).2.2.1 rfl rfl 30 rfl
  have h10 : Pi5.get_flow_rate ⟨[("pump1", 17)], [("pump1", 10)], ⟨3/2, 1/2, 20, 1⟩, []⟩
      "pump1" = some 10 := by decide
  have := h.2 10 h10 (by norm_num)
  have hcorr : Pi5.get_correction_factor
      ⟨[("pump1", 17)], [("pump1", 10)], ⟨3/2, 1/2, 20, 1⟩, []⟩ "pump1" = 1 := by decide
  rw [hcorr] at this
  exact this

/-- All steps generated by the build_firmware_command loop carry a strictly
positive ratio. -/
theorem Backend.buildSteps_pos (normalize : String → String)
    (pm : List (String × String)) :
    ∀ l : List (String × ℚ), ∀ st ∈ Backend.buildSteps normalize pm l, 0 < st.ratio := by
  intro l
  induction l with
  | nil => intro st hst; exact absurd hst (by simp [Backend.buildSteps])
  | cons x rest ih =>
    obtain ⟨xi, xr⟩ := x
    intro st hst
    by_cases hr : xr ≤ 0
    · rw [Backend.buildSteps, if_pos hr] at hst
      exact ih st hst
    · rw [Backend.buildSteps, if_neg hr] at hst
      rcases hlk : alookup (normalize xi) pm with _ | pumpName
      · simp only [hlk] at hst
        exact ih st hst
      · simp only [hlk] at hst
        rcases hid : Backend.pumpNameToId pumpName with _ | pid
        · simp only [hid] at hst
          exact ih st hst
        · simp only [hid, List.mem_cons] at hst
          rcases hst with heq | hmem
          · rw [heq]
            exact lt_of_not_le hr
          · exact ih st hmem

/-- C8: a ratio step with a nonpositive ratio (equivalently, a nonpositive
resolved duration) is skipped entirely by build_firmware_command: removing it
leaves the generated command unchanged, and every generated step has a
strictly positive ratio, so no command ever activates a pump for it. -/
theorem Backend.build_skips_nonpositive_ratio
    (normalize : String → String) (pm : List (String × String))
    (pre post : List (String × ℚ)) (ing : String) (r : ℚ) (hr : r ≤ 0) :
    Backend.ratioSeconds r ≤ 0 ∧
      Backend.buildSteps normalize pm (pre ++ (ing, r) :: post)
        = Backend.buildSteps normalize pm (pre ++ post) ∧
      ∀ st ∈ Backend.buildSteps normalize pm (pre ++ (ing, r) :: post), 0 < st.ratio := by
  refine ⟨?_, ?_, Backend.buildSteps_pos normalize pm _⟩
  · unfold Backend.ratioSeconds
    nlinarith
  · induction pre with
    | nil =>
      simp only [List.nil_append]
      rw [Backend.buildSteps, if_pos hr]
    | cons x rest ih =>
      obtain ⟨xi, xr⟩ := x
      simp only [List.cons_append]
      rw [Backend.buildSteps, Backend.buildSteps]
      rw [ih]

/-- Witness for C8: the zero-ratio middle step of a three-ingredient drink
produces no command while the other two steps are unchanged. -/
theorem Backend.build_skips_nonpositive_ratio_witness :
    (0:ℚ) ≤ 0 ∧
      (Backend.ratioSeconds 0 ≤ 0 ∧
        Backend.buildSteps id [("vodka", "pump1"), ("gin", "pump2"), ("lime", "pump3")]
            ([("vodka", 60)] ++ ("gin", (0:ℚ)) :: [("lime", 40)])
          = Backend.buildSteps id [("vodka", "pump1"), ("gin", "pump2"), ("lime", "pump3")]
              ([("vodka", 60)] ++ [("lime", 40)]) ∧
        ∀ st ∈ Backend.buildSteps id [("vodka", "pump1"), ("gin", "pump2"), ("lime", "pump3")]
            ([("vodka", 60)] ++ ("gin", (0:ℚ)) :: [("lime", 40)]), 0 < st.ratio) :=
  ⟨le_refl 0,
    Backend.build_skips_nonpositive_ratio id
      [("vodka", "pump1"), ("gin", "pump2"), ("lime", "pump3")]
      [("vodka", 60)] [("lime", 40)] "gin" 0 (le_refl 0)⟩

/-- C7 counterexample: the firmware pumps controller enforces no cooldown.
With a configured cooldown of 1 second and a previous activation of pump1
that ended at time 0, a second activation issued at time 1/2 starts right at
1/2 even though 1/2 is earlier than the previous end plus the cooldown. -/
theorem FwPumps.no_cooldown_cex :
    FwPumps.run_step ⟨[("pump1", 17)], 1/2, 20, 1⟩ "pump1" 2 (1/2)
        = Except.ok ⟨1/2, 5/2⟩ ∧
      ¬ ((0:ℚ) + (⟨[("pump1", 17)], 1/2, 20, 1⟩ : FwPumps.Controller).cooldown_seconds
          ≤ 1/2) := by
  constructor
  · unfold FwPumps.run_step
    norm_num [alookup]
  · norm_num

/-- C7 (amended): in the Pi5 controller a second activation of a pump with
cooldown c > 0 issued before the previous end plus c starts exactly at the
previous end plus c (in particular no earlier), and a pump without a prior
activation starts without delay; the firmware pumps controller applies no
cooldown at all - every accepted activation starts at its issue time. -/
theorem Pi5.cooldown_enforced_firmware_none
    (m : Pi5.PumpMapping) (cds : List (String × ℚ)) (pump : String) (s now last : ℚ)
    (hc : 0 < m.defaults.cooldown_seconds) :
    (alookup pump cds = some last → now < last + m.defaults.cooldown_seconds →
        (Pi5.run_pump_timed m cds pump s now).1.start = last + m.defaults.cooldown_seconds ∧
          last + m.defaults.cooldown_seconds ≤ (Pi5.run_pump_timed m cds pump s now).1.start) ∧
      (alookup pump cds = none → (Pi5.run_pump_timed m cds pump s now).1.start = now) ∧
      (∀ (c : FwPumps.Controller) (p2 : String) (s2 n2 : ℚ) (tr : TimedRun),
        FwPumps.run_step c p2 s2 n2 = Except.ok tr → tr.start = n2) := by
  refine ⟨?_, ?_, ?_⟩
  · intro hlast hgap
    have hnotle : ¬ m.defaults.cooldown_seconds ≤ 0 := not_le.mpr hc
    have hpos : 0 < m.defaults.cooldown_seconds - (now - last) := by linarith
    have hstart : (Pi5.run_pump_timed m cds pump s now).1.start
        = now + (m.defaults.cooldown_seconds - (now - last)) := by
      unfold Pi5.run_pump_timed Pi5.cooldown_delay
      simp [hlast, hnotle, hpos]
    constructor
    · rw [hstart]; ring
    · rw [hstart]; linarith
  · intro hnone
    unfold Pi5.run_pump_timed Pi5.cooldown_delay
    simp [hnone]
  · intro c p2 s2 n2 tr htr
    unfold FwPumps.run_step at htr
    cases hlk : alookup p2 c.pumps with
    | none => rw [hlk] at htr; exact Except.noConfusion htr
    | some pin =>
      rw [hlk] at htr
      rw [Except.ok.injEq] at htr
      rw [← htr]

/-- Witness for C7 (amended): pump1 with cooldown 1 whose previous activation
ended at time 10, reactivated at time 21/2, starts at 11 = 10 + 1. -/
theorem Pi5.cooldown_enforced_firmware_none_witness :
    (0:ℚ) < 1 ∧
      (alookup "pump1" [("pump1", (10:ℚ))] = some 10 → (21:ℚ)/2 < 10 + 1 →
          (Pi5.run_pump_timed ⟨[("pump1", 17)], [], ⟨3/2, 1/2, 20, 1⟩, []⟩
              [("pump1", 10)] "pump1" 2 (21/2)).1.start = 10 + 1 ∧
            10 + 1 ≤ (Pi5.run_pump_timed ⟨[("pump1", 17)], [], ⟨3/2, 1/2, 20, 1⟩, []⟩
              [("pump1", 10)] "pump1" 2 (21/2)).1.start) :=
  ⟨by norm_num,
    fun h1 h2 => ((Pi5.cooldown_enforced_firmware_none
      ⟨[("pump1", 17)], [], ⟨3/2, 1/2, 20, 1⟩, []⟩ [("pump1", 10)] "pump1" 2 (21/2) 10
      (by norm_num)).1 h1 h2)⟩

/-- Every successful sequential Pi5 run returns one result per step, in
submission order, and its event trace is exactly the expected sequential
trace. -/
theorem Pi5.run_steps_ok (m : Pi5.PumpMapping) (hw : Bool) (pause : ℚ) :
    ∀ steps : List (String × ℚ),
      (∀ x ∈ steps,
        (alookup x.1 m.pumps).isSome ∧ 0 < x.2 ∧ x.2 ≤ m.defaults.max_run_seconds) →
      ∃ rs, Pi5.run_steps m hw pause steps = (Except.ok rs, Pi5.seqTrace pause steps) ∧
        rs.map (fun r => (r.pump, r.seconds)) = steps := by
  intro steps
  induction steps with
  | nil => intro _; exact ⟨[], rfl, rfl⟩
  | cons x rest ih =>
    obtain ⟨p, s⟩ := x
    intro hv
    obtain ⟨hpin, hs, hsmax⟩ := hv (p, s) (List.mem_cons_self _ _)
    obtain ⟨rs, hrs, hmap⟩ := ih (fun y hy => hv y (List.mem_cons_of_mem _ hy))
    obtain ⟨pin, hpin2⟩ := Option.isSome_iff_exists.mp hpin
    have hdisp : (Pi5.dispense m hw p s).1 = Except.ok ⟨p, pin, s, hw⟩ := by
      have h1 : ¬ s ≤ 0 := not_le.mpr hs
      have h2 : ¬ (m.defaults.max_run_seconds ≠ 0 ∧ m.defaults.max_run_seconds < s) := by
        rintro ⟨-, hlt⟩; linarith
      unfold Pi5.dispense Pi5.validate_seconds Pi5.get_pin
      simp [h1, h2, hpin2]
    refine ⟨⟨p, pin, s, hw⟩ :: rs, ?_, ?_⟩
    · rw [Pi5.run_steps, hdisp]
      simp only [hrs]
      rw [Pi5.seqTrace]
    · simp [hmap]

/-- The last event of a nonempty expected sequential trace is a pump
activation, never a pause. -/
theorem Pi5.seqTrace_last_is_act (pause : ℚ) :
    ∀ steps : List (String × ℚ), steps ≠ [] →
      ∃ p s, (Pi5.seqTrace pause steps).getLast? = some (SeqEvent.act p s) := by
  intro steps
  induction steps with
  | nil => intro h; exact absurd rfl h
  | cons x rest ih =>
    obtain ⟨p, s⟩ := x
    intro _
    cases rest with
    | nil =>
      refine ⟨p, s, ?_⟩
      simp [Pi5.seqTrace]
    | cons y rest2 =>
      obtain ⟨q, t, hqt⟩ := ih (by simp)
      refine ⟨q, t, ?_⟩
      have htail : Pi5.seqTrace pause (y :: rest2) ≠ [] := by
        obtain ⟨y1, y2⟩ := y
        simp [Pi5.seqTrace]
      have hboth :
          ((if 0 < pause ∧ (y :: rest2) ≠ [] then [SeqEvent.pauseFor pause] else []) ++
            Pi5.seqTrace pause (y :: rest2)) ≠ [] :=
        fun h => htail (List.append_eq_nil.mp h).2
      rw [Pi5.seqTrace]
      rw [show SeqEvent.act p s ::
          ((if 0 < pause ∧ (y :: rest2) ≠ [] then [SeqEvent.pauseFor pause] else []) ++
            Pi5.seqTrace pause (y :: rest2))
        = [SeqEvent.act p s] ++
          ((if 0 < pause ∧ (y :: rest2) ≠ [] then [SeqEvent.pauseFor pause] else []) ++
            Pi5.seqTrace pause (y :: rest2)) from rfl]
      rw [List.getLast?_append_of_ne_nil _ hboth]
      rw [List.getLast?_append_of_ne_nil _ htail]
      exact hqt

/-- C5 counterexample: the firmware sequential controller also pauses after
the final step: a valid single-step run with pause 1 produces a trace whose
last event is the pause, contradicting the claim that no pause occurs after
the final step. -/
theorem FwPumps.trailing_pause_cex :
    FwPumps.steps_events ⟨[("pump1", 17)], 1/2, 20, 1⟩ 1 [("pump1", 2)]
        = Except.ok [SeqEvent.act "pump1" 2, SeqEvent.pauseFor 1] ∧
      [SeqEvent.act "pump1" 2, SeqEvent.pauseFor 1].getLast? = some (SeqEvent.pauseFor 1) := by
  constructor
  · simp [FwPumps.steps_events, alookup]
    norm_num
  · rfl

/-- C5 (amended): in the Pi5 controller run_steps executes a nonempty valid
step list strictly in submission order with exactly one result per step, the
trace is the expected sequential trace whose pauses sit only between
consecutive steps, and the final event is an activation, not a pause; the
firmware sequential controller and the backend dispense_sequence instead also
sleep the pause after the final step. -/
theorem Pi5.run_steps_order_and_pause
    (m : Pi5.PumpMapping) (hw : Bool) (pause : ℚ) (steps : List (String × ℚ))
    (hne : steps ≠ []) (_hp : 0 ≤ pause)
    (hv : ∀ x ∈ steps,
      (alookup x.1 m.pumps).isSome ∧ 0 < x.2 ∧ x.2 ≤ m.defaults.max_run_seconds) :
    (∃ rs, Pi5.run_steps m hw pause steps = (Except.ok rs, Pi5.seqTrace pause steps) ∧
        rs.map (fun r => (r.pump, r.seconds)) = steps) ∧
      ∃ p s, (Pi5.seqTrace pause steps).getLast? = some (SeqEvent.act p s) :=
  ⟨Pi5.run_steps_ok m hw pause steps hv, Pi5.seqTrace_last_is_act pause steps hne⟩

/-- Witness for C5 (amended): a two-step run on pumps 1 and 2 with pause 1. -/
theorem Pi5.run_steps_order_and_pause_witness :
    ([("pump1", (2:ℚ)), ("pump2", 3)] ≠ ([] : List (String × ℚ))) ∧ (0:ℚ) ≤ 1 ∧
      ((∃ rs, Pi5.run_steps ⟨[("pump1", 17), ("pump2", 27)], [], ⟨3/2, 1/2, 20, 1⟩, []⟩
            false 1 [("pump1", 2), ("pump2", 3)]
            = (Except.ok rs, Pi5.seqTrace 1 [("pump1", 2), ("pump2", 3)]) ∧
          rs.map (fun r => (r.pump, r.seconds)) = [("pump1", 2), ("pump2", 3)]) ∧
        ∃ p s, (Pi5.seqTrace 1 [("pump1", (2:ℚ)), ("pump2", 3)]).getLast?
          = some (SeqEvent.act p s)) :=
  ⟨by decide, by norm_num,
    Pi5.run_steps_order_and_pause ⟨[("pump1", 17), ("pump2", 27)], [], ⟨3/2, 1/2, 20, 1⟩, []⟩
      false 1 [("pump1", 2), ("pump2", 3)] (by decide) (by norm_num) (by decide)⟩

/-- C3 counterexample: a request whose first hardware step names the unknown
pump pumpX and whose second step names pump1 does not fail: the unknown step
is skipped with a warning, pump1 (GPIO 17) still runs for its 3 seconds, and
the response reports success - no validation error is raised before a pump is
energized. -/
theorem FwRoute.unknown_pump_not_fail_fast_cex :
    FwRoute.receive_drink_steps [] [] FwRoute.PUMP_TO_GPIO
        [⟨some "pumpX", none, some 2, none, none⟩, ⟨some "pump1", none, some 3, none, none⟩]
      = ⟨true, [(17, 3)]⟩ := by
  decide

/-- C3 (amended): in the firmware route a step whose pump cannot be resolved
to a GPIO pin is skipped with a warning rather than failing the request -
removing such a step leaves the outcome unchanged, so the remaining steps
still execute and the request errors only when no step resolves; in the Pi5
controller, by contrast, an unknown pump id is a hard lookup error and that
pump is never energized. -/
theorem FwRoute.unresolved_step_skipped_and_pi5_hard_error
    (pm : List (String × String)) (itg ptg : List (String × Int))
    (pre post : List FwRoute.HwStep) (bad : FwRoute.HwStep)
    (hbad : FwRoute.resolveStepPin pm itg ptg bad = none) :
    FwRoute.receive_drink_steps pm itg ptg (pre ++ bad :: post)
        = FwRoute.receive_drink_steps pm itg ptg (pre ++ post) ∧
      ∀ (m : Pi5.PumpMapping) (pump : String), alookup pump m.pumps = none →
        Pi5.get_pin m pump = Except.error "Unknown pump in mapping" := by
  constructor
  · have heq : (pre ++ bad :: post).filterMap (fun st =>
        match FwRoute.resolveStepPin pm itg ptg st with
        | some pin => some (pin, FwRoute.stepSeconds st)
        | none => none)
        = (pre ++ post).filterMap (fun st =>
          match FwRoute.resolveStepPin pm itg ptg st with
          | some pin => some (pin, FwRoute.stepSeconds st)
          | none => none) := by
      rw [List.filterMap_append, List.filterMap_append]
      congr 1
      rw [List.filterMap_cons]
      simp [hbad]
    unfold FwRoute.receive_drink_steps
    rw [heq]
  · intro m pump h
    unfold Pi5.get_pin
    rw [h]

/-- Witness for C3 (amended): dropping the unknown pumpX step from a request
leaves the pump1 outcome unchanged, and an unknown pump fails hard in the Pi5
mapping. -/
theorem FwRoute.unresolved_step_skipped_and_pi5_hard_error_witness :
    FwRoute.resolveStepPin [] [] FwRoute.PUMP_TO_GPIO
        ⟨some "pumpX", none, some 2, none, none⟩ = none ∧
      (FwRoute.receive_drink_steps [] [] FwRoute.PUMP_TO_GPIO
          ([] ++ ⟨some "pumpX", none, some 2, none, none⟩ ::
            [⟨some "pump1", none, some 3, none, none⟩])
          = FwRoute.receive_drink_steps [] [] FwRoute.PUMP_TO_GPIO
              ([] ++ [⟨some "pump1", none, some 3, none, none⟩]) ∧
        ∀ (m : Pi5.PumpMapping) (pump : String), alookup pump m.pumps = none →
          Pi5.get_pin m pump = Except.error "Unknown pump in mapping") :=
  ⟨by decide,
    FwRoute.unresolved_step_skipped_and_pi5_hard_error [] [] FwRoute.PUMP_TO_GPIO
      [] [⟨some "pump1", none, some 3, none, none⟩]
      ⟨some "pumpX", none, some 2, none, none⟩ (by decide)⟩

/-- Every gathered task duration is bounded by the largest duration of the
batch. -/
theorem FwRoute.le_maxDur :
    ∀ (tasks : List (Int × ℚ)) (t : Int × ℚ), t ∈ tasks → t.2 ≤ FwRoute.maxDur tasks := by
  intro tasks
  induction tasks with
  | nil => intro t ht; exact absurd ht (by simp)
  | cons x rest ih =>
    obtain ⟨xp, xd⟩ := x
    intro t ht
    rw [FwRoute.maxDur]
    rcases List.mem_cons.mp ht with heq | hmem
    · subst heq
      exact le_max_left _ _
    · exact le_trans (ih t hmem) (le_max_right _ _)

/-- C4 counterexample: the pi-controller dispatcher is fire-and-forget.  A
valid 2 second pour on pump_1 is accepted, start_dispense returns at its
issue time 0, yet the launched pump task only releases the pin and completes
at time 2 - the dispatch call returns before the task has completed. -/
theorem PiCtrl.fire_and_forget_cex :
    PiCtrl.start_dispense ⟨[("pump_1", 5)], 0, 15⟩ ⟨"pump_1", 5, 2, 0, 0, 0⟩ false 0
        = Except.ok ⟨⟨0, 2, 0, 0⟩, 0, 0, 2, 2⟩ ∧
      ((⟨⟨0, 2, 0, 0⟩, 0, 0, 2, 2⟩ : PiCtrl.Launch).returnTime
        < (⟨⟨0, 2, 0, 0⟩, 0, 0, 2, 2⟩ : PiCtrl.Launch).taskEndTime) := by
  constructor
  · unfold PiCtrl.start_dispense
    simp [alookup]
    norm_num
  · norm_num

/-- C4 (amended): in the firmware multi-pump route every gathered task starts
at the gather time (all pumps launch concurrently) and the call returns only
once the slowest task has finished (fan-in barrier); the pi-controller
dispatcher, by contrast, schedules its dispense task with create_task and
start_dispense returns already at its issue time, before the task completes. -/
theorem FwRoute.gather_barrier_vs_fire_and_forget
    (t0 : ℚ) (tasks : List (Int × ℚ)) (_hne : tasks ≠ []) :
    (∀ tt ∈ (FwRoute.gatherRun t0 tasks).1,
        tt.start = t0 ∧ tt.finish ≤ (FwRoute.gatherRun t0 tasks).2) ∧
      ∀ (c : PiCtrl.Controller) (p : PiCtrl.PumpPayload) (busy : Bool) (now : ℚ)
        (l : PiCtrl.Launch),
        PiCtrl.start_dispense c p busy now = Except.ok l → l.returnTime = now := by
  constructor
  · intro tt htt
    unfold FwRoute.gatherRun at htt ⊢
    simp only [List.mem_map] at htt
    obtain ⟨pd, hpd, rfl⟩ := htt
    refine ⟨rfl, ?_⟩
    have := FwRoute.le_maxDur tasks pd hpd
    simp only
    linarith
  · intro c p busy now l hl
    exact (PiCtrl.start_dispense_ok_elim c p busy now l hl).1

/-- Witness for C4 (amended): two concurrent tasks of 5/2 seconds each on
pins 17 and 27 both start at time 0 and the gather returns at 5/2. -/
theorem FwRoute.gather_barrier_vs_fire_and_forget_witness :
    ([((17:Int), (5:ℚ)/2), (27, 5/2)] ≠ ([] : List (Int × ℚ))) ∧
      ((∀ tt ∈ (FwRoute.gatherRun 0 [((17:Int), (5:ℚ)/2), (27, 5/2)]).1,
          tt.start = 0 ∧ tt.finish ≤ (FwRoute.gatherRun 0 [((17:Int), (5:ℚ)/2), (27, 5/2)]).2) ∧
        ∀ (c : PiCtrl.Controller) (p : PiCtrl.PumpPayload) (busy : Bool) (now : ℚ)
          (l : PiCtrl.Launch),
          PiCtrl.start_dispense c p busy now = Except.ok l → l.returnTime = now) :=
  ⟨by decide,
    FwRoute.gather_barrier_vs_fire_and_forget 0 [((17:Int), (5:ℚ)/2), (27, 5/2)] (by decide)⟩
